import Mathlib

/-!
Shallow embedding of `src/core/orchestration/orchestration_manager.py`.

It models the agent registry, single-task dispatch (`execute_task`),
workflow orchestration in sequential / parallel / conditional modes
(`orchestrate_workflow`), condition evaluation (`evaluate_condition`),
scenario validation (`validate_scenario`, `execute_e2e_scenario`) and
execution-history queries (`get_execution_history`).

Dynamic Python values are modelled by `Value`.  Tasks and shared contexts
are Python dicts with string keys and are modelled as association lists in
insertion order (`List (String × Value)`), with `setKey` reproducing
Python dict assignment (update in place, append when new).  Wall-clock
fields of execution records (`start_time`, `end_time`, `duration_seconds`)
and the timestamp-derived `workflow_id` are omitted (telemetry only, not
statable); log statements are ignored.  Python exception control flow is
made explicit: an agent handle either returns a result (`AgentOutcome.ok`)
or raises (`AgentOutcome.exn`), and the `try`/`except` blocks of the
source become the corresponding case analyses.  Per the agent contract of
the specification, handles exchange dict-shaped tasks and results.
-/

namespace Orchestration

/-- Dynamic (JSON-like) Python values appearing in tasks, results and
contexts. -/
inductive Value where
  | null
  | bool (b : Bool)
  | int (n : Int)
  | str (s : String)
  | dict (entries : List (String × Value))

/-- Lookup of a key in a Python dict (association list, first match). -/
def entriesGet : List (String × Value) → String → Option Value
  | [], _ => none
  | (k, v) :: rest, key => if k == key then some v else entriesGet rest key

/-- `d.get(key, default)` on a Python dict given as an association list. -/
def entriesGetD (es : List (String × Value)) (key : String) (d : Value) : Value :=
  (entriesGet es key).getD d

/-- `v.get(key)` when `v` is a dict value; `none` otherwise. -/
def valGet : Value → String → Option Value
  | .dict es, key => entriesGet es key
  | _, _ => none

/-- `v.get(key, default)` on a dict value. -/
def valGetD (v : Value) (key : String) (d : Value) : Value :=
  (valGet v key).getD d

/-- Python dict assignment `d[key] = v`: replaces the value in place when
the key exists, appends a new entry otherwise. -/
def setKey : List (String × Value) → String → Value → List (String × Value)
  | [], key, v => [(key, v)]
  | (k, w) :: rest, key, v =>
    if k == key then (key, v) :: rest else (k, w) :: setKey rest key v

/-- Python truthiness of a value (`if x:`). -/
def truthy : Value → Bool
  | .null => false
  | .bool b => b
  | .int n => n != 0
  | .str s => s != ""
  | .dict es => !es.isEmpty

mutual

/-- Python `==` on modelled values: `None`, booleans / integers (Python
booleans compare equal to `0` / `1`), strings, and dicts (key-wise,
order-insensitive).  Values of unrelated kinds compare unequal. -/
def pyEq : Value → Value → Bool
  | .null, .null => true
  | .bool a, .bool b => a == b
  | .bool a, .int n => (if a then (1 : Int) else 0) == n
  | .int n, .bool a => n == (if a then (1 : Int) else 0)
  | .int a, .int b => a == b
  | .str a, .str b => a == b
  | .dict a, .dict b => a.length == b.length && pyEqEntries a b
  | _, _ => false

/-- Every entry of the first dict is present in the second with a
`pyEq`-equal value. -/
def pyEqEntries : List (String × Value) → List (String × Value) → Bool
  | [], _ => true
  | (k, v) :: rest, b =>
    (match entriesGet b k with
     | some w => pyEq v w
     | none => false) && pyEqEntries rest b

end

/-- `AgentType` enum of the source (eight fixed agent identifiers). -/
inductive AgentType where
  | report
  | monitoring
  | its
  | db_extract
  | change_mgmt
  | biz_support
  | sop
  | infra
deriving DecidableEq

/-- `AgentType.value`: the enum member's string value. -/
def AgentType.value : AgentType → String
  | .report => "report"
  | .monitoring => "monitoring"
  | .its => "its"
  | .db_extract => "db_extract"
  | .change_mgmt => "change_mgmt"
  | .biz_support => "biz_support"
  | .sop => "sop"
  | .infra => "infra"

/-- Python `f"{agent_type}"` on an enum member (`str(AgentType.REPORT)` is
`"AgentType.REPORT"`). -/
def AgentType.pyStr : AgentType → String
  | .report => "AgentType.REPORT"
  | .monitoring => "AgentType.MONITORING"
  | .its => "AgentType.ITS"
  | .db_extract => "AgentType.DB_EXTRACT"
  | .change_mgmt => "AgentType.CHANGE_MGMT"
  | .biz_support => "AgentType.BIZ_SUPPORT"
  | .sop => "AgentType.SOP"
  | .infra => "AgentType.INFRA"

/-- `AgentType(s)`: value-based enum construction, `none` models the
`ValueError` raised on an unknown literal. -/
def AgentType.fromString : String → Option AgentType
  | "report" => some .report
  | "monitoring" => some .monitoring
  | "its" => some .its
  | "db_extract" => some .db_extract
  | "change_mgmt" => some .change_mgmt
  | "biz_support" => some .biz_support
  | "sop" => some .sop
  | "infra" => some .infra
  | _ => none

/-- Message of the `ValueError` raised by `AgentType(s)` on a bad literal. -/
def invalidAgentTypeMsg (s : String) : String :=
  "'" ++ s ++ "' is not a valid AgentType"

/-- `OrchestrationMode` enum of the source. -/
inductive OrchestrationMode where
  | sequential
  | parallel
  | conditional
  | delegated
deriving DecidableEq

/-- `OrchestrationMode.value`. -/
def OrchestrationMode.value : OrchestrationMode → String
  | .sequential => "sequential"
  | .parallel => "parallel"
  | .conditional => "conditional"
  | .delegated => "delegated"

/-- `OrchestrationMode(s)`; `none` models the `ValueError` on a bad
literal. -/
def OrchestrationMode.fromString : String → Option OrchestrationMode
  | "sequential" => some .sequential
  | "parallel" => some .parallel
  | "conditional" => some .conditional
  | "delegated" => some .delegated
  | _ => none

/-- Message of the `ValueError` raised by `OrchestrationMode(s)`. -/
def invalidModeMsg (s : String) : String :=
  "'" ++ s ++ "' is not a valid OrchestrationMode"

/-- Outcome of awaiting `agent.execute_task(task)`: either a returned
result value or a raised exception carrying its message. -/
inductive AgentOutcome where
  | ok (result : Value)
  | exn (msg : String)

/-- An agent handle: receives the (dict) task, returns a result or
raises. -/
abbrev Handle := List (String × Value) → AgentOutcome

/-- The agent registry `self.agents`: immutable map from agent type to
handle (`self.agents.get(agent_type)`). -/
abbrev Registry := AgentType → Option Handle

/-- One record of `self.execution_history`.  The wall-clock fields of the
source (`start_time`, `end_time`, `duration_seconds`) are omitted. -/
structure ExecRecord where
  agent_type : String
  task_type : Value
  success : Value

/-- Truthiness of `result.get("success")` / `result.get("success", False)`
as used throughout the source. -/
def resSuccess (result : Value) : Bool :=
  truthy (valGetD result "success" .null)

/-- `task["context"] = context` guarded by `if context:` — the context is
attached only when present and non-empty (Python truthiness of an
optional dict). -/
def attachContext (task : List (String × Value)) :
    Option (List (String × Value)) → List (String × Value)
  | some c => if c.isEmpty then task else setKey task "context" (.dict c)
  | none => task

/-- Everything `OrchestrationManager.execute_task` produces: the returned
result, the caller's task object after the call (the source mutates it in
place), and the execution history after the call. -/
structure ExecOut where
  result : Value
  task' : List (String × Value)
  hist' : List ExecRecord

/-- `OrchestrationManager.execute_task(agent_type, task, context)`.

Looks up the handle; when absent returns the not-found error result
without touching task or history.  Otherwise attaches the context to the
task (in-place mutation), invokes the handle, and on normal return
appends one execution record; when the handle raises, the exception is
caught and converted to an error result and no record is appended (the
`try` block of the source encloses the append). -/
def execute_task (reg : Registry) (agent_type : AgentType)
    (task : List (String × Value)) (context : Option (List (String × Value)))
    (hist : List ExecRecord) : ExecOut :=
  match reg agent_type with
  | none =>
    { result := .dict [("success", .bool false),
                       ("error", .str ("Agent not found: " ++ agent_type.pyStr))],
      task' := task,
      hist' := hist }
  | some handle =>
    let task1 := attachContext task context
    match handle task1 with
    | .ok result =>
      { result := result,
        task' := task1,
        hist' := hist ++ [{ agent_type := agent_type.value,
                            task_type := entriesGetD task1 "type" .null,
                            success := valGetD result "success" (.bool false) }] }
    | .exn msg =>
      { result := .dict [("success", .bool false), ("error", .str msg),
                         ("agent_type", .str agent_type.value)],
        task' := task1,
        hist' := hist }

/-- The history restricted by the optional `agent_type` filter of
`get_execution_history`. -/
def historyFilter (hist : List ExecRecord) : Option AgentType → List ExecRecord
  | some a => hist.filter (fun h => h.agent_type == a.value)
  | none => hist

/-- `OrchestrationManager.get_execution_history(agent_type, limit)`:
filters by agent type and returns `history[-limit:]` — for `limit = 0`
the Python slice `[-0:]` is `[0:]`, i.e. the whole list. -/
def get_execution_history (hist : List ExecRecord)
    (agent_type : Option AgentType) (limit : Nat) : List ExecRecord :=
  let h := historyFilter hist agent_type
  if limit = 0 then h else h.drop (h.length - limit)

/-- A condition dict for conditional mode, with the fields the evaluator
reads (`condition.get("type"/"agent"/"field"/"value")`); absent keys are
`none` (and `value` absent is Python `None`). -/
structure Cond where
  ctype : Option String
  agent : Option String
  field : Option String
  value : Value

/-- `context.get(agent, {})` where `agent` itself may be absent (Python
`None` is simply not a key of the string-keyed context). -/
def condAgentResult (context : List (String × Value)) : Option String → Value
  | some a => entriesGetD context a (.dict [])
  | none => .dict []

/-- `agent_result.get(field)` where `field` may be absent. -/
def condFieldValue (ar : Value) : Option String → Value
  | some f => valGetD ar f .null
  | none => .null

/-- `OrchestrationManager._evaluate_condition(condition, context)`.
Returns the raw Python value the source returns (`agent_success` passes
the stored success value through); the caller tests its truthiness. -/
def evaluate_condition (condition : Cond) (context : List (String × Value)) : Value :=
  if condition.ctype = some "agent_success" then
    valGetD (condAgentResult context condition.agent) "success" (.bool false)
  else if condition.ctype = some "field_equals" then
    .bool (pyEq (condFieldValue (condAgentResult context condition.agent) condition.field)
                condition.value)
  else
    .bool true

/-- One workflow step as read by `orchestrate_workflow`:
`step.get("name")`, `step["agent"]` (a string parsed through
`AgentType(...)`), `step["task"]`, `step.get("stop_on_failure", False)`
and `step.get("condition")`. -/
structure Step where
  name : Option String
  agent : String
  task : List (String × Value)
  stop_on_failure : Bool
  condition : Option Cond

/-- One entry of the `results` list built by `orchestrate_workflow`. -/
structure StepResult where
  step : String
  agent : String
  result : Value

/-- Default `Step` used with `List.getD` in theorem statements. -/
def dStep : Step := { name := none, agent := "", task := [],
                      stop_on_failure := false, condition := none }

/-- Default `StepResult` used with `List.getD` in theorem statements. -/
def dSR : StepResult := { step := "", agent := "", result := .null }

/-- The sequential-mode loop of `orchestrate_workflow`.  `n` is the number
of results accumulated so far (for the `f"Step {len(results) + 1}"`
default name); the produced results are returned without the already
accumulated queue.  An invalid agent literal raises `ValueError`
(`Except.error`), discarding results but keeping the history mutated so
far; on a failed step with `stop_on_failure` the loop breaks after
recording the failing step. -/
def runSeqGo (reg : Registry) :
    Nat → List (String × Value) → List ExecRecord → List Step →
    List ExecRecord × Except String (List StepResult × List (String × Value))
  | _, ctx, hist, [] => (hist, .ok ([], ctx))
  | n, ctx, hist, step :: rest =>
    match AgentType.fromString step.agent with
    | none => (hist, .error (invalidAgentTypeMsg step.agent))
    | some a =>
      let e := execute_task reg a step.task (some ctx) hist
      let sr : StepResult :=
        { step := step.name.getD ("Step " ++ toString (n + 1)),
          agent := a.value, result := e.result }
      let ctx' := if resSuccess e.result then setKey ctx a.value e.result else ctx
      if !resSuccess e.result && step.stop_on_failure then
        (e.hist', .ok ([sr], ctx'))
      else
        let tail := runSeqGo reg (n + 1) ctx' e.hist' rest
        (tail.1,
         match tail.2 with
         | .ok (rs, ctxF) => .ok (sr :: rs, ctxF)
         | .error m => .error m)

/-- The first loop of the parallel branch: converts every step's agent
literal before anything runs (`asyncio` coroutines are created but not
awaited until `gather`), raising on the first invalid literal. -/
def parseSteps : List Step → Except String (List (AgentType × Step))
  | [] => .ok []
  | step :: rest =>
    match AgentType.fromString step.agent with
    | none => .error (invalidAgentTypeMsg step.agent)
    | some a =>
      match parseSteps rest with
      | .ok l => .ok ((a, step) :: l)
      | .error m => .error m

/-- Execution of the gathered parallel dispatches.  Every step runs
against the shared context taken before fan-out, which is still the empty
dict; the parallel branch never updates `workflow_context`.  Sibling
interleaving is determinised to list order (the per-step results do not
depend on it, and history order among siblings is one admissible order of
the cooperative scheduler).  The `isinstance(task_result, Exception)`
branch of the source is dead code here because `execute_task` catches
every handle exception itself. -/
def runParGo (reg : Registry) :
    Nat → List ExecRecord → List (AgentType × Step) →
    List ExecRecord × List StepResult
  | _, hist, [] => (hist, [])
  | i, hist, (a, step) :: rest =>
    let e := execute_task reg a step.task (some []) hist
    let sr : StepResult :=
      { step := step.name.getD ("Step " ++ toString (i + 1)),
        agent := step.agent, result := e.result }
    let tail := runParGo reg (i + 1) e.hist' rest
    (tail.1, sr :: tail.2)

/-- The conditional-mode loop of `orchestrate_workflow`: a present
condition is evaluated against the current context before the agent
literal is even parsed; a falsy evaluation skips the step entirely
(`continue`).  Executed steps behave like sequential steps without the
stop-on-failure check. -/
def runCondGo (reg : Registry) :
    Nat → List (String × Value) → List ExecRecord → List Step →
    List ExecRecord × Except String (List StepResult × List (String × Value))
  | _, ctx, hist, [] => (hist, .ok ([], ctx))
  | n, ctx, hist, step :: rest =>
    let skip := match step.condition with
      | some c => !truthy (evaluate_condition c ctx)
      | none => false
    if skip then
      runCondGo reg n ctx hist rest
    else
      match AgentType.fromString step.agent with
      | none => (hist, .error (invalidAgentTypeMsg step.agent))
      | some a =>
        let e := execute_task reg a step.task (some ctx) hist
        let sr : StepResult :=
          { step := step.name.getD ("Step " ++ toString (n + 1)),
            agent := a.value, result := e.result }
        let ctx' := if resSuccess e.result then setKey ctx a.value e.result else ctx
        let tail := runCondGo reg (n + 1) ctx' e.hist' rest
        (tail.1,
         match tail.2 with
         | .ok (rs, ctxF) => .ok (sr :: rs, ctxF)
         | .error m => .error m)

/-- The successful-return dict of `orchestrate_workflow` (its
timestamp-derived `workflow_id` and `timestamp` fields are omitted). -/
structure WFOk where
  mode : String
  total_steps : Nat
  successful_steps : Nat
  results : List StepResult
  workflow_context : List (String × Value)
  success : Bool

/-- The value `orchestrate_workflow` returns: either the regular result
dict or — when the `try` block raised — the caught-and-returned
`\x7b"success": False, "error": msg\x7d` dict, modelled by `err`. -/
inductive WFResult where
  | ok (out : WFOk)
  | err (msg : String)

/-- Assembles the success-path return dict: `success_count` counts results
whose `result.get("success", False)` is truthy, and the workflow succeeds
iff every produced result did. -/
def mkWFOk (mode : OrchestrationMode) (workflow : List Step)
    (results : List StepResult) (ctx : List (String × Value)) : WFOk :=
  let c := results.countP (fun r => resSuccess r.result)
  { mode := mode.value,
    total_steps := workflow.length,
    successful_steps := c,
    results := results,
    workflow_context := ctx,
    success := c == results.length }

/-- `OrchestrationManager.orchestrate_workflow(workflow, mode)`, returning
the result value together with the execution history after the call.  The
`delegated` mode has no branch in the source and falls through to the
result assembly with empty results. -/
def orchestrate_workflow (reg : Registry) (workflow : List Step)
    (mode : OrchestrationMode) (hist : List ExecRecord) :
    WFResult × List ExecRecord :=
  match mode with
  | .sequential =>
    match runSeqGo reg 0 [] hist workflow with
    | (hist', .ok (results, ctx)) => (.ok (mkWFOk mode workflow results ctx), hist')
    | (hist', .error m) => (.err m, hist')
  | .parallel =>
    match parseSteps workflow with
    | .error m => (.err m, hist)
    | .ok pairs =>
      let t := runParGo reg 0 hist pairs
      (.ok (mkWFOk mode workflow t.2 []), t.1)
  | .conditional =>
    match runCondGo reg 0 [] hist workflow with
    | (hist', .ok (results, ctx)) => (.ok (mkWFOk mode workflow results ctx), hist')
    | (hist', .error m) => (.err m, hist')
  | .delegated => (.ok (mkWFOk mode workflow [] []), hist)

/-- `workflow_result.get("success", False)` (the error dict carries
`success: False`). -/
def wfSuccess : WFResult → Bool
  | .ok o => o.success
  | .err _ => false

/-- `workflow_result.get("successful_steps", 0)`. -/
def wfSuccessfulSteps : WFResult → Nat
  | .ok o => o.successful_steps
  | .err _ => 0

/-- `workflow_result.get("total_steps", 1)`. -/
def wfTotalSteps : WFResult → Nat
  | .ok o => o.total_steps
  | .err _ => 1

/-- `workflow_result.get("workflow_context", {})`. -/
def wfContext : WFResult → List (String × Value)
  | .ok o => o.workflow_context
  | .err _ => []

/-- `workflow_result.get("results", [])` (used only in statements). -/
def wfResults : WFResult → List StepResult
  | .ok o => o.results
  | .err _ => []

/-- The validation criteria read by `_validate_scenario`:
`validation_criteria.get("min_success_rate", 1.0)` and
`validation_criteria.get("required_agents", [])`. -/
structure Criteria where
  min_success_rate : ℚ
  required_agents : List String

/-- The validation result of `_validate_scenario`: overall flag, the
computed success rate, and the per-criterion outcomes (the rate criterion
followed by one flag per required agent, mirroring the `validations`
list). -/
structure ValidationOut where
  valid : Bool
  success_rate : ℚ
  rate_ok : Bool
  agent_checks : List (String × Bool)

/-- `OrchestrationManager._validate_scenario(workflow_result, criteria)`:
`success_rate = successful_steps / max(total_steps, 1)`, compared with the
minimum rate; each required agent is checked via
`workflow_context.get(agent, {}).get("success", False)`; `valid` is the
conjunction of every criterion. -/
def validate_scenario (wr : WFResult) (crit : Criteria) : ValidationOut :=
  let rate : ℚ := (wfSuccessfulSteps wr : ℚ) / ((max (wfTotalSteps wr) 1 : Nat) : ℚ)
  let rateOk : Bool := decide (crit.min_success_rate ≤ rate)
  let checks := crit.required_agents.map
    (fun a => (a, resSuccess (entriesGetD (wfContext wr) a (.dict []))))
  { valid := rateOk && checks.all (fun p => p.2),
    success_rate := rate,
    rate_ok := rateOk,
    agent_checks := checks }

/-- The scenario configuration read by `execute_e2e_scenario`:
`scenario_config.get("workflow", [])`, `scenario_config.get("mode",
"sequential")` (still a string literal at this point) and
`scenario_config.get("validation_criteria", {})`. -/
structure ScenarioConfig where
  workflow : List Step
  mode : String
  validation_criteria : Criteria

/-- The value returned by `execute_e2e_scenario`: the regular scenario
dict (its `scenario_id` / `scenario_name` / `timestamp` telemetry fields
omitted) or the caught-exception error dict. -/
inductive E2EResult where
  | ok (success : Bool) (workflow_result : WFResult) (validation : ValidationOut)
  | err (msg : String)

/-- `OrchestrationManager.execute_e2e_scenario(name, config)`: parses the
mode literal (a bad literal raises inside the `try` and is returned as the
error dict, before any dispatch), runs the workflow, validates it, and
returns `success = workflow_result.get("success", False)` alongside the
independent validation outcome. -/
def execute_e2e_scenario (reg : Registry) (config : ScenarioConfig)
    (hist : List ExecRecord) : E2EResult × List ExecRecord :=
  match OrchestrationMode.fromString config.mode with
  | none => (.err (invalidModeMsg config.mode), hist)
  | some m =>
    let p := orchestrate_workflow reg config.workflow m hist
    (.ok (wfSuccess p.1) p.1 (validate_scenario p.1 config.validation_criteria), p.2)

/-- The `success` flag of a scenario result (used only in statements). -/
def e2eSuccessFlag : E2EResult → Bool
  | .ok s _ _ => s
  | .err _ => false

/-- The `validation.valid` flag of a scenario result (used only in
statements). -/
def e2eValidFlag : E2EResult → Option Bool
  | .ok _ _ v => some v.valid
  | .err _ => none

/-- The shared-context fold of the specification: starting from `init`,
apply each produced result in order, writing `ctx[agentType] = result`
exactly on success.  `successCtx [] (results.take i)` is the context made
of the successful results of steps `0 .. i-1`. -/
def successCtx (init : List (String × Value)) (rs : List StepResult) :
    List (String × Value) :=
  rs.foldl (fun ctx r => if resSuccess r.result then setKey ctx r.agent r.result else ctx) init

/-! Concrete fixtures used by witnesses and counterexamples. -/

/-- A canonical successful agent result. -/
def okRes : Value := .dict [("success", .bool true), ("data", .str "ok")]

/-- A canonical failed (but normally returned) agent result. -/
def failRes : Value := .dict [("success", .bool false), ("error", .str "step failed")]

/-- A registry with a succeeding, a failing and a raising agent. -/
def regT : Registry := fun a =>
  match a with
  | .monitoring => some (fun _ => .ok okRes)
  | .report => some (fun _ => .ok okRes)
  | .sop => some (fun _ => .ok failRes)
  | .infra => some (fun _ => .exn "boom")
  | _ => none

/-- The empty registry (no handle registered for any type). -/
def regNone : Registry := fun _ => none

/-- A minimal task fixture. -/
def task0 : List (String × Value) := [("type", .str "t")]

/-- A history record fixture. -/
def rec0 : ExecRecord :=
  { agent_type := "monitoring", task_type := .null, success := .bool true }

/-! Helper lemmas. -/

/-- The result of a dispatch does not depend on the history it is run
against. -/
theorem execute_task_result_hist_irrel (reg : Registry) (a : AgentType)
    (task : List (String × Value)) (context : Option (List (String × Value)))
    (hist : List ExecRecord) :
    (execute_task reg a task context hist).result =
      (execute_task reg a task context []).result := by
  cases hr : reg a with
  | none => simp [execute_task, hr]
  | some handle => cases ho : handle (attachContext task context) <;> simp [execute_task, hr, ho]

/-- The task object after a dispatch: untouched when the handle is
absent, otherwise exactly the context-attachment step. -/
theorem execute_task_task_after (reg : Registry) (a : AgentType)
    (task : List (String × Value)) (context : Option (List (String × Value)))
    (hist : List ExecRecord) :
    (execute_task reg a task context hist).task' =
      match reg a with
      | none => task
      | some _ => attachContext task context := by
  cases hr : reg a with
  | none => simp [execute_task, hr]
  | some handle => cases ho : handle (attachContext task context) <;> simp [execute_task, hr, ho]

/-- Assigning an absent key appends the entry at the end of the dict. -/
theorem setKey_of_not_mem (es : List (String × Value)) (k : String) (v : Value)
    (h : entriesGet es k = none) : setKey es k v = es ++ [(k, v)] := by
  induction es with
  | nil => rfl
  | cons kv rest ih =>
    obtain ⟨k', w⟩ := kv
    by_cases hk : (k' == k) = true
    · simp [entriesGet, hk] at h
    · simp only [entriesGet, hk] at h
      simp only [Bool.false_eq_true, if_false] at h
      simp [setKey, hk, ih h]

/-! Claims C1, C6, C9, C10 about the dispatcher and the history query. -/

/-- Claim C1 (amended): when a registered handle is invoked, any exception
it raises is caught and converted to the returned error result
`\x7bsuccess: false, error: msg, agent_type: ...\x7d` and never propagated;
exactly one execution record is appended when the handle returns normally
(whether its result is a success or a failure), but when the handle
raises, no record is appended — the `try` block of the source encloses
the append, so the exception skips it. -/
theorem execute_task_handle_outcomes (reg : Registry) (a : AgentType)
    (task : List (String × Value)) (context : Option (List (String × Value)))
    (hist : List ExecRecord) (handle : Handle) (h : reg a = some handle) :
    (∀ r, handle (attachContext task context) = .ok r →
       execute_task reg a task context hist =
         { result := r, task' := attachContext task context,
           hist' := hist ++ [{ agent_type := a.value,
                               task_type := entriesGetD (attachContext task context) "type" .null,
                               success := valGetD r "success" (.bool false) }] }) ∧
    (∀ m, handle (attachContext task context) = .exn m →
       execute_task reg a task context hist =
         { result := .dict [("success", .bool false), ("error", .str m),
                            ("agent_type", .str a.value)],
           task' := attachContext task context, hist' := hist }) := by
  constructor
  · intro r hr; simp [execute_task, h, hr]
  · intro m hm; simp [execute_task, h, hm]

/-- Witness for C1: the raising `infra` handle of `regT` is caught and
converted, and the history stays empty. -/
theorem execute_task_handle_outcomes_witness :
    regT AgentType.infra = some (fun _ => .exn "boom") ∧
    execute_task regT .infra task0 none [] =
      { result := .dict [("success", .bool false), ("error", .str "boom"),
                         ("agent_type", .str "infra")],
        task' := task0, hist' := [] } :=
  ⟨rfl, (execute_task_handle_outcomes regT .infra task0 none []
      (fun _ => .exn "boom") rfl).2 "boom" rfl⟩

/-- Counterexample to C1 as stated: a handle that raises is invoked, yet
zero (not one) execution records are appended. -/
theorem execute_task_raise_no_history_cex :
    (execute_task regT .infra task0 none []).hist'.length ≠ 1 ∧
    (execute_task regT .infra task0 none []).result =
      .dict [("success", .bool false), ("error", .str "boom"),
             ("agent_type", .str "infra")] :=
  ⟨by decide, rfl⟩

/-- Claim C6 (amended): dispatching to an agent type with no registered
handle returns `\x7bsuccess: false, error: "Agent not found: <agent_type>"\x7d`
(not the literal message `"agent not found"`), leaves the caller's task
untouched and appends zero execution-history records. -/
theorem agent_not_found_spec (reg : Registry) (a : AgentType)
    (task : List (String × Value)) (context : Option (List (String × Value)))
    (hist : List ExecRecord) (h : reg a = none) :
    execute_task reg a task context hist =
      { result := .dict [("success", .bool false),
                         ("error", .str ("Agent not found: " ++ a.pyStr))],
        task' := task, hist' := hist } := by
  simp [execute_task, h]

/-- Witness for C6 at the empty registry. -/
theorem agent_not_found_spec_witness :
    regNone AgentType.report = none ∧
    execute_task regNone .report task0 none [] =
      { result := .dict [("success", .bool false),
                         ("error", .str "Agent not found: AgentType.REPORT")],
        task' := task0, hist' := [] } :=
  ⟨rfl, agent_not_found_spec regNone .report task0 none [] rfl⟩

/-- Counterexample to C6 as stated: the error message is
`"Agent not found: AgentType.REPORT"`, not `"agent not found"` (the
success flag and the absence of new history records do hold). -/
theorem agent_not_found_message_cex :
    valGet (execute_task regNone .report task0 none []).result "error" =
      some (.str "Agent not found: AgentType.REPORT") ∧
    "Agent not found: AgentType.REPORT" ≠ "agent not found" ∧
    (execute_task regNone .report task0 none []).hist' = [] :=
  ⟨rfl, by decide, rfl⟩

/-- Claim C9 (amended): the caller's task is left unchanged when no
context, an empty context, or no registered handle is involved; but when
a registered handle is dispatched with a non-empty context, the
dispatcher mutates the caller's task in place, setting its `"context"`
key — for a task without that key the object after the call differs from
the original. -/
theorem task_mutation_spec (reg : Registry) (a : AgentType)
    (task : List (String × Value)) (hist : List ExecRecord) :
    ((execute_task reg a task none hist).task' = task) ∧
    ((execute_task reg a task (some []) hist).task' = task) ∧
    (reg a = none → ∀ context, (execute_task reg a task context hist).task' = task) ∧
    (∀ handle c, reg a = some handle → c ≠ [] →
       (execute_task reg a task (some c) hist).task' = setKey task "context" (.dict c) ∧
       (entriesGet task "context" = none →
         (execute_task reg a task (some c) hist).task' ≠ task)) := by
  refine ⟨?_, ?_, ?_, ?_⟩
  · rw [execute_task_task_after]; cases reg a <;> rfl
  · rw [execute_task_task_after]; cases reg a <;> rfl
  · intro h context; rw [execute_task_task_after, h]
  · intro handle c hr hc
    have hattach : attachContext task (some c) = setKey task "context" (.dict c) := by
      cases c with
      | nil => exact absurd rfl hc
      | cons x xs => rfl
    have h1 : (execute_task reg a task (some c) hist).task' =
        setKey task "context" (.dict c) := by
      rw [execute_task_task_after, hr, hattach]
    refine ⟨h1, ?_⟩
    intro hnone heq
    rw [h1, setKey_of_not_mem task _ _ hnone] at heq
    have := congrArg List.length heq
    simp at this

/-- Witness for C9: the succeeding `monitoring` handle dispatched with a
non-empty context mutates the task. -/
theorem task_mutation_spec_witness :
    regT AgentType.monitoring = some (fun _ => .ok okRes) ∧
    ([("x", Value.bool true)] ≠ ([] : List (String × Value))) ∧
    entriesGet task0 "context" = none ∧
    (execute_task regT .monitoring task0 (some [("x", .bool true)]) []).task' =
      setKey task0 "context" (.dict [("x", .bool true)]) ∧
    (execute_task regT .monitoring task0 (some [("x", .bool true)]) []).task' ≠ task0 := by
  have h := (task_mutation_spec regT .monitoring task0 []).2.2.2
      (fun _ => .ok okRes) [("x", .bool true)] rfl (by simp)
  exact ⟨rfl, by simp, rfl, h.1, h.2 rfl⟩

/-- Counterexample to C9 as stated: after a dispatch with a non-empty
context the caller's task object has gained a `"context"` key. -/
theorem task_mutation_cex :
    (execute_task regT .monitoring task0 (some [("x", .bool true)]) []).task' =
      task0 ++ [("context", .dict [("x", .bool true)])] ∧
    (execute_task regT .monitoring task0 (some [("x", .bool true)]) []).task' ≠ task0 := by
  have he : (execute_task regT .monitoring task0 (some [("x", .bool true)]) []).task' =
      task0 ++ [("context", .dict [("x", .bool true)])] := rfl
  refine ⟨he, ?_⟩
  rw [he]
  intro h
  have := congrArg List.length h
  simp [task0] at this

/-- Claim C10 (amended): the history query returns a contiguous final
segment (hence the most recent records, in insertion order) of the
agent-filtered history; for `limit ≥ 1` its length is
`min limit (filtered length)`, but for `limit = 0` the Python slice
`[-0:]` returns the whole filtered history rather than the empty list.
The read is idempotent: the function is pure in the history and its
arguments. -/
theorem history_query_spec (hist : List ExecRecord) (a : Option AgentType)
    (limit : Nat) :
    ∃ dropped, historyFilter hist a = dropped ++ get_execution_history hist a limit ∧
      (get_execution_history hist a limit).length =
        (if limit = 0 then (historyFilter hist a).length
         else min limit (historyFilter hist a).length) := by
  by_cases h0 : limit = 0
  · exact ⟨[], by simp [get_execution_history, h0]⟩
  · refine ⟨(historyFilter hist a).take ((historyFilter hist a).length - limit), ?_, ?_⟩
    · simp [get_execution_history, h0, List.take_append_drop]
    · simp only [get_execution_history, h0, if_false, List.length_drop]
      omega

/-- Counterexample to C10 as stated: with one record in history,
`limit = 0` returns that record, not the empty list. -/
theorem history_limit_zero_cex :
    get_execution_history [rec0] none 0 = [rec0] ∧
    get_execution_history [rec0] none 0 ≠ [] := by
  have h1 : get_execution_history [rec0] none 0 = [rec0] := rfl
  refine ⟨h1, ?_⟩
  rw [h1]
  simp

/-! Claims C8 and C5: the condition evaluator and conditional mode. -/

/-- A step gated on an agent that never ran (fixture for C8 / C5). -/
def stepGated : Step :=
  { name := some "gated", agent := "report", task := task0,
    stop_on_failure := false,
    condition := some { ctype := some "agent_success", agent := some "x",
                        field := none, value := .null } }

/-- Claim C8 (confirmed): `agent_success` yields the stored success value
— for a boolean-success result (the agent contract) it is true iff
`SharedContext[agent].success == true`, and a missing agent key yields
false rather than an error; `field_equals` compares
`SharedContext[agent][field]` with the condition's value under Python
`==` (type-sensitive across value kinds); any other condition kind
evaluates to true (fail-open); and a conditional step gated on an agent
absent from the context is skipped without error. -/
theorem evaluate_condition_spec :
    (∀ (context : List (String × Value)) (a : String),
       entriesGet context a = none →
       evaluate_condition { ctype := some "agent_success", agent := some a,
                            field := none, value := .null } context = .bool false) ∧
    (∀ (context : List (String × Value)) (a : String) (r : Value) (b : Bool),
       entriesGet context a = some r →
       valGet r "success" = some (.bool b) →
       truthy (evaluate_condition { ctype := some "agent_success", agent := some a,
                                    field := none, value := .null } context) = b) ∧
    (∀ (context : List (String × Value)) (a f : String) (v : Value),
       evaluate_condition { ctype := some "field_equals", agent := some a,
                            field := some f, value := v } context =
         .bool (pyEq (valGetD (entriesGetD context a (.dict [])) f .null) v)) ∧
    (∀ (context : List (String × Value)) (c : Cond),
       c.ctype ≠ some "agent_success" → c.ctype ≠ some "field_equals" →
       evaluate_condition c context = .bool true) ∧
    (∀ (reg : Registry) (n : Nat) (ctx : List (String × Value)) (hist : List ExecRecord)
       (step : Step) (rest : List Step) (a : String),
       step.condition = some { ctype := some "agent_success", agent := some a,
                               field := none, value := .null } →
       entriesGet ctx a = none →
       runCondGo reg n ctx hist (step :: rest) = runCondGo reg n ctx hist rest) := by
  have key : ∀ (context : List (String × Value)) (a : String),
      entriesGet context a = none →
      evaluate_condition { ctype := some "agent_success", agent := some a,
                           field := none, value := .null } context = .bool false := by
    intro context a h
    simp [evaluate_condition, condAgentResult, entriesGetD, h, valGetD, valGet, entriesGet]
  refine ⟨key, ?_, ?_, ?_, ?_⟩
  · intro context a r b h1 h2
    simp [evaluate_condition, condAgentResult, entriesGetD, h1, valGetD, h2, truthy]
  · intro context a f v
    rfl
  · intro context c h1 h2
    unfold evaluate_condition
    rw [if_neg h1, if_neg h2]
  · intro reg n ctx hist step rest a hcond hctx
    have he := key ctx a hctx
    simp [runCondGo, hcond, he, truthy]

/-- Witness for C8: evaluating `agent_success` over a context holding a
boolean-success result. -/
theorem evaluate_condition_spec_witness :
    entriesGet [("m", okRes)] "m" = some okRes ∧
    valGet okRes "success" = some (.bool true) ∧
    truthy (evaluate_condition { ctype := some "agent_success", agent := some "m",
                                 field := none, value := .null } [("m", okRes)]) = true :=
  ⟨rfl, rfl, evaluate_condition_spec.2.1 [("m", okRes)] "m" okRes true rfl rfl⟩

/-- Claim C5 (confirmed): in conditional mode a step whose condition
evaluates falsy is skipped entirely — the loop continues on the remaining
steps with untouched results, context, numbering and history (first
conjunct); yet the reported `total_steps` is the full requested length,
and the workflow's success flag is `successful_steps == len(results)`
over the results actually produced, true exactly when every produced
result succeeded (second conjunct). -/
theorem conditional_mode_spec :
    (∀ (reg : Registry) (n : Nat) (ctx : List (String × Value)) (hist : List ExecRecord)
       (step : Step) (rest : List Step) (c : Cond),
       step.condition = some c →
       truthy (evaluate_condition c ctx) = false →
       runCondGo reg n ctx hist (step :: rest) = runCondGo reg n ctx hist rest) ∧
    (∀ (reg : Registry) (steps : List Step) (hist hist2 : List ExecRecord)
       (results : List StepResult) (ctx : List (String × Value)),
       runCondGo reg 0 [] hist steps = (hist2, .ok (results, ctx)) →
       orchestrate_workflow reg steps .conditional hist =
         (.ok (mkWFOk .conditional steps results ctx), hist2) ∧
       (mkWFOk .conditional steps results ctx).total_steps = steps.length ∧
       (mkWFOk .conditional steps results ctx).successful_steps =
         results.countP (fun r => resSuccess r.result) ∧
       ((mkWFOk .conditional steps results ctx).success = true ↔
         ∀ r ∈ results, resSuccess r.result = true)) := by
  constructor
  · intro reg n ctx hist step rest c hc ht
    simp [runCondGo, hc, ht]
  · intro reg steps hist hist2 results ctx hrun
    refine ⟨?_, rfl, rfl, ?_⟩
    · unfold orchestrate_workflow
      rw [hrun]
    · simp [mkWFOk, List.countP_eq_length]

/-- Witness for C5: a workflow whose single step is gated on an agent
that never ran — the step is skipped, no result and no history entry is
produced, while `total_steps` still reports it. -/
theorem conditional_mode_spec_witness :
    stepGated.condition = some { ctype := some "agent_success", agent := some "x",
                                 field := none, value := .null } ∧
    truthy (evaluate_condition { ctype := some "agent_success", agent := some "x",
                                 field := none, value := .null } []) = false ∧
    runCondGo regT 0 [] [] [stepGated] = runCondGo regT 0 [] [] [] ∧
    orchestrate_workflow regT [stepGated] .conditional [] =
      (.ok (mkWFOk .conditional [stepGated] [] []), []) ∧
    (mkWFOk .conditional [stepGated] [] []).total_steps = 1 ∧
    (mkWFOk .conditional [stepGated] [] []).results = [] ∧
    (mkWFOk .conditional [stepGated] [] []).success = true := by
  refine ⟨rfl, rfl, ?_, ?_, rfl, rfl, rfl⟩
  · exact conditional_mode_spec.1 regT 0 [] [] stepGated [] _ rfl rfl
  · exact (conditional_mode_spec.2 regT [stepGated] [] [] [] [] rfl).1

/-! Claims C2 and C4: parallel mode and malformed input. -/

/-- A single-step workflow fixture on the succeeding `monitoring` agent. -/
def stepMon : Step :=
  { name := some "m1", agent := "monitoring", task := task0,
    stop_on_failure := false, condition := none }

/-- A step with an invalid agent literal. -/
def stepBad : Step :=
  { name := some "bad", agent := "bogus", task := task0,
    stop_on_failure := false, condition := none }

/-- When every step's agent literal is valid, the parallel pre-pass
converts them all in list order. -/
theorem parseSteps_of_valid (steps : List Step)
    (h : ∀ s ∈ steps, (AgentType.fromString s.agent).isSome = true) :
    parseSteps steps =
      .ok (steps.map (fun s => ((AgentType.fromString s.agent).getD .report, s))) := by
  induction steps with
  | nil => rfl
  | cons step rest ih =>
    have h1 : (AgentType.fromString step.agent).isSome = true := h step (by simp)
    obtain ⟨a, ha⟩ := Option.isSome_iff_exists.mp h1
    have hrest := ih (fun s hs => h s (by simp [hs]))
    simp [parseSteps, ha, hrest]

/-- Shape of the gathered parallel execution: one result per pair, each
step's result computed against the empty context snapshot, each result
carrying the step's raw agent string. -/
theorem runParGo_spec (reg : Registry) :
    ∀ (pairs : List (AgentType × Step)) (i : Nat) (hist : List ExecRecord),
      (runParGo reg i hist pairs).2.length = pairs.length ∧
      ∀ j, j < pairs.length →
        ((runParGo reg i hist pairs).2.getD j dSR).agent =
          (pairs.getD j (.report, dStep)).2.agent ∧
        ((runParGo reg i hist pairs).2.getD j dSR).result =
          (execute_task reg (pairs.getD j (.report, dStep)).1
            (pairs.getD j (.report, dStep)).2.task (some []) []).result := by
  intro pairs
  induction pairs with
  | nil =>
    intro i hist
    exact ⟨rfl, fun j hj => absurd hj (by simp)⟩
  | cons p rest ih =>
    intro i hist
    obtain ⟨a, step⟩ := p
    have htail := ih (i + 1) (execute_task reg a step.task (some []) hist).hist'
    constructor
    · simp [runParGo, htail.1]
    · intro j hj
      cases j with
      | zero =>
        refine ⟨rfl, ?_⟩
        simp only [runParGo, List.getD_cons_zero]
        exact execute_task_result_hist_irrel reg a step.task (some []) hist
      | succ k =>
        have hk : k < rest.length := by simpa using hj
        have := htail.2 k hk
        simpa [runParGo] using this

/-- Claim C2 (amended): in parallel mode the returned SharedContext is
always the empty dict — the parallel branch never folds step results
(successful or not) into `workflow_context`; every step is dispatched
against the empty pre-fan-out snapshot and its result is reported only in
the `results` list. -/
theorem parallel_context_spec (reg : Registry) (steps : List Step)
    (hist : List ExecRecord)
    (h : ∀ s ∈ steps, (AgentType.fromString s.agent).isSome = true) :
    ∃ out hist',
      orchestrate_workflow reg steps .parallel hist = (.ok out, hist') ∧
      out.workflow_context = [] ∧
      out.results.length = steps.length ∧
      out.total_steps = steps.length ∧
      ∀ i, i < steps.length →
        ∃ a, AgentType.fromString (steps.getD i dStep).agent = some a ∧
          (out.results.getD i dSR).agent = (steps.getD i dStep).agent ∧
          (out.results.getD i dSR).result =
            (execute_task reg a (steps.getD i dStep).task (some []) []).result := by
  have hp := parseSteps_of_valid steps h
  set pairs := steps.map (fun s => ((AgentType.fromString s.agent).getD .report, s)) with hpairs
  have hlenp : pairs.length = steps.length := by simp [hpairs]
  have hr := runParGo_spec reg pairs 0 hist
  refine ⟨mkWFOk .parallel steps (runParGo reg 0 hist pairs).2 [],
          (runParGo reg 0 hist pairs).1, ?_, rfl, ?_, rfl, ?_⟩
  · unfold orchestrate_workflow
    rw [hp]
  · show (runParGo reg 0 hist pairs).2.length = steps.length
    rw [hr.1, hlenp]
  · intro i hi
    have hi' : i < pairs.length := by rw [hlenp]; exact hi
    have hidx := hr.2 i hi'
    have hsi : (AgentType.fromString (steps.getD i dStep).agent).isSome = true := by
      have hmem : steps.getD i dStep ∈ steps := by
        rw [List.getD_eq_getElem _ _ hi]
        exact List.getElem_mem _
      exact h _ hmem
    obtain ⟨a, ha⟩ := Option.isSome_iff_exists.mp hsi
    refine ⟨a, ha, ?_, ?_⟩
    · have hpidx : pairs.getD i (.report, dStep) =
          ((AgentType.fromString (steps.getD i dStep).agent).getD .report, steps.getD i dStep) := by
        rw [hpairs]
        rw [List.getD_eq_getElem _ _ hi', List.getElem_map]
        rw [List.getD_eq_getElem _ _ hi]
      rw [show (mkWFOk .parallel steps (runParGo reg 0 hist pairs).2 []).results =
            (runParGo reg 0 hist pairs).2 from rfl]
      rw [hidx.1, hpidx]
    · have hpidx : pairs.getD i (.report, dStep) =
          ((AgentType.fromString (steps.getD i dStep).agent).getD .report, steps.getD i dStep) := by
        rw [hpairs]
        rw [List.getD_eq_getElem _ _ hi', List.getElem_map]
        rw [List.getD_eq_getElem _ _ hi]
      rw [show (mkWFOk .parallel steps (runParGo reg 0 hist pairs).2 []).results =
            (runParGo reg 0 hist pairs).2 from rfl]
      rw [hidx.2, hpidx, ha]
      rfl

/-- Witness for C2's amended statement at a concrete one-step workflow. -/
theorem parallel_context_spec_witness :
    (∀ s ∈ [stepMon], (AgentType.fromString s.agent).isSome = true) ∧
    (∃ out hist',
      orchestrate_workflow regT [stepMon] .parallel [] = (.ok out, hist') ∧
      out.workflow_context = [] ∧
      out.results.length = [stepMon].length ∧
      out.total_steps = [stepMon].length ∧
      ∀ i, i < [stepMon].length →
        ∃ a, AgentType.fromString (([stepMon].getD i dStep)).agent = some a ∧
          (out.results.getD i dSR).agent = ([stepMon].getD i dStep).agent ∧
          (out.results.getD i dSR).result =
            (execute_task regT a ([stepMon].getD i dStep).task (some []) []).result) :=
  ⟨by decide, parallel_context_spec regT [stepMon] [] (by decide)⟩

/-- Counterexample to C2 as stated: a parallel workflow whose single step
succeeds, yet the returned SharedContext is empty — the successful step's
result is not stored under its agent type. -/
theorem parallel_context_cex :
    (wfResults (orchestrate_workflow regT [stepMon] .parallel []).1).length = 1 ∧
    resSuccess ((wfResults (orchestrate_workflow regT [stepMon] .parallel []).1).getD 0 dSR).result
      = true ∧
    wfContext (orchestrate_workflow regT [stepMon] .parallel []).1 = [] ∧
    entriesGet (wfContext (orchestrate_workflow regT [stepMon] .parallel []).1) "monitoring"
      = none :=
  ⟨rfl, rfl, rfl, rfl⟩

/-- Claim C4 (amended): a malformed agent or mode literal never reaches
the caller as an exception — the `ValueError` is caught and returned as
the `\x7bsuccess: false, error: msg\x7d` dict (`WFResult.err` /
`E2EResult.err`).  When the malformed step is reached in sequential mode
the loop aborts there, dispatching nothing further (first conjunct); with
the malformed step first, or with a malformed mode literal in a scenario,
nothing at all is dispatched (second and third conjuncts).  Steps before
a later malformed step, however, are already dispatched when the error is
produced (see the counterexample). -/
theorem malformed_input_returned_spec :
    (∀ (reg : Registry) (n : Nat) (ctx : List (String × Value)) (hist : List ExecRecord)
       (step : Step) (rest : List Step),
       AgentType.fromString step.agent = none →
       runSeqGo reg n ctx hist (step :: rest) =
         (hist, .error (invalidAgentTypeMsg step.agent))) ∧
    (∀ (reg : Registry) (hist : List ExecRecord) (step : Step) (rest : List Step),
       AgentType.fromString step.agent = none →
       orchestrate_workflow reg (step :: rest) .sequential hist =
         (.err (invalidAgentTypeMsg step.agent), hist)) ∧
    (∀ (reg : Registry) (config : ScenarioConfig) (hist : List ExecRecord),
       OrchestrationMode.fromString config.mode = none →
       execute_e2e_scenario reg config hist = (.err (invalidModeMsg config.mode), hist)) := by
  have h1 : ∀ (reg : Registry) (n : Nat) (ctx : List (String × Value))
      (hist : List ExecRecord) (step : Step) (rest : List Step),
      AgentType.fromString step.agent = none →
      runSeqGo reg n ctx hist (step :: rest) =
        (hist, .error (invalidAgentTypeMsg step.agent)) := by
    intro reg n ctx hist step rest h
    simp [runSeqGo, h]
  refine ⟨h1, ?_, ?_⟩
  · intro reg hist step rest h
    unfold orchestrate_workflow
    rw [h1 reg 0 [] hist step rest h]
  · intro reg config hist h
    simp [execute_e2e_scenario, h]

/-- Witness for C4: a workflow whose first step is malformed returns the
error dict with no dispatch at all. -/
theorem malformed_input_returned_spec_witness :
    AgentType.fromString stepBad.agent = none ∧
    orchestrate_workflow regT [stepBad] .sequential [] =
      (.err "'bogus' is not a valid AgentType", []) :=
  ⟨rfl, malformed_input_returned_spec.2.1 regT [] stepBad [] rfl⟩

/-- Counterexample to C4 as stated: with the malformed step second, the
error is produced only after step one was dispatched (one history record
exists), and it reaches the caller as the returned error dict, not as a
raised exception — `orchestrate_workflow` yields a value, never a fault. -/
theorem malformed_step_cex :
    (orchestrate_workflow regT [stepMon, stepBad] .sequential []).1 =
      .err "'bogus' is not a valid AgentType" ∧
    (orchestrate_workflow regT [stepMon, stepBad] .sequential []).2.length = 1 :=
  ⟨rfl, rfl⟩

/-! Claim C7: scenario execution and validation. -/

/-- A scenario whose workflow fully succeeds but whose validation
requires an agent that never ran. -/
def cfgIndep : ScenarioConfig :=
  { workflow := [stepMon], mode := "sequential",
    validation_criteria := { min_success_rate := 1, required_agents := ["sop"] } }

/-- Claim C7 (confirmed): a scenario run executes the workflow and then,
independently, the validation: `success_rate` is
`successful_steps / max(total_steps, 1)` — equal to
`successfulSteps / totalSteps(requested)` whenever
`successfulSteps ≤ totalSteps` (with the empty-workflow case agreeing
under the rational convention `0 / 0 = 0`); each required agent is
checked via `SharedContext[agent].success`; `valid` is the conjunction of
the rate criterion and all agent criteria; the returned `success` is the
workflow's own success flag.  The two booleans are computed
independently: the concrete scenario `cfgIndep` yields `success = true`
with `validation.valid = false`. -/
theorem e2e_validation_spec :
    (∀ (reg : Registry) (config : ScenarioConfig) (hist : List ExecRecord)
       (m : OrchestrationMode), OrchestrationMode.fromString config.mode = some m →
       execute_e2e_scenario reg config hist =
         (.ok (wfSuccess (orchestrate_workflow reg config.workflow m hist).1)
              (orchestrate_workflow reg config.workflow m hist).1
              (validate_scenario (orchestrate_workflow reg config.workflow m hist).1
                 config.validation_criteria),
          (orchestrate_workflow reg config.workflow m hist).2)) ∧
    (∀ (wr : WFResult) (crit : Criteria),
       (validate_scenario wr crit).success_rate =
         (wfSuccessfulSteps wr : ℚ) / ((max (wfTotalSteps wr) 1 : Nat) : ℚ) ∧
       (validate_scenario wr crit).rate_ok =
         decide (crit.min_success_rate ≤ (validate_scenario wr crit).success_rate) ∧
       (validate_scenario wr crit).agent_checks =
         crit.required_agents.map
           (fun a => (a, resSuccess (entriesGetD (wfContext wr) a (.dict [])))) ∧
       (validate_scenario wr crit).valid =
         ((validate_scenario wr crit).rate_ok &&
          (validate_scenario wr crit).agent_checks.all (fun p => p.2))) ∧
    (∀ (wr : WFResult) (crit : Criteria),
       wfSuccessfulSteps wr ≤ wfTotalSteps wr →
       (validate_scenario wr crit).success_rate =
         (wfSuccessfulSteps wr : ℚ) / (wfTotalSteps wr : ℚ)) ∧
    (e2eSuccessFlag (execute_e2e_scenario regT cfgIndep []).1 = true ∧
     e2eValidFlag (execute_e2e_scenario regT cfgIndep []).1 = some false) := by
  refine ⟨?_, ?_, ?_, ?_, ?_⟩
  · intro reg config hist m h
    simp [execute_e2e_scenario, h]
  · intro wr crit
    exact ⟨rfl, rfl, rfl, rfl⟩
  · intro wr crit hle
    by_cases h0 : wfTotalSteps wr = 0
    · have hs : wfSuccessfulSteps wr = 0 := by omega
      simp [validate_scenario, h0, hs]
    · have hmax : max (wfTotalSteps wr) 1 = wfTotalSteps wr := by omega
      simp [validate_scenario, hmax]
  · rfl
  · have hv : e2eValidFlag (execute_e2e_scenario regT cfgIndep []).1 =
        some ((validate_scenario (orchestrate_workflow regT cfgIndep.workflow .sequential []).1
                 cfgIndep.validation_criteria).rate_ok &&
              (validate_scenario (orchestrate_workflow regT cfgIndep.workflow .sequential []).1
                 cfgIndep.validation_criteria).agent_checks.all (fun p => p.2)) := rfl
    have hall : (validate_scenario (orchestrate_workflow regT cfgIndep.workflow .sequential []).1
        cfgIndep.validation_criteria).agent_checks.all (fun p => p.2) = false := rfl
    rw [hv, hall, Bool.and_false]

/-- Witness for C7 at the independence scenario. -/
theorem e2e_validation_spec_witness :
    OrchestrationMode.fromString cfgIndep.mode = some .sequential ∧
    execute_e2e_scenario regT cfgIndep [] =
      (.ok (wfSuccess (orchestrate_workflow regT cfgIndep.workflow .sequential []).1)
           (orchestrate_workflow regT cfgIndep.workflow .sequential []).1
           (validate_scenario (orchestrate_workflow regT cfgIndep.workflow .sequential []).1
              cfgIndep.validation_criteria),
       (orchestrate_workflow regT cfgIndep.workflow .sequential []).2) :=
  ⟨rfl, e2e_validation_spec.1 regT cfgIndep [] .sequential rfl⟩

/-! Claim C3: sequential mode. -/

/-- Unfolding equation of the sequential loop at a step whose agent
literal parses. -/
theorem runSeqGo_cons (reg : Registry) (n : Nat) (ctx : List (String × Value))
    (hist : List ExecRecord) (step : Step) (rest : List Step) (a : AgentType)
    (ha : AgentType.fromString step.agent = some a) :
    runSeqGo reg n ctx hist (step :: rest) =
      (let e := execute_task reg a step.task (some ctx) hist
       let sr : StepResult := { step := step.name.getD ("Step " ++ toString (n + 1)),
                                agent := a.value, result := e.result }
       let ctx' := if resSuccess e.result then setKey ctx a.value e.result else ctx
       if !resSuccess e.result && step.stop_on_failure then
         (e.hist', .ok ([sr], ctx'))
       else
         let tail := runSeqGo reg (n + 1) ctx' e.hist' rest
         (tail.1,
          match tail.2 with
          | .ok (rs, ctxF) => .ok (sr :: rs, ctxF)
          | .error m => .error m)) := by
  conv_lhs => rw [runSeqGo]
  rw [ha]

/-- Invariant of the sequential loop: starting from any context
accumulator, the loop succeeds on a workflow whose agent literals all
parse, its results are a prefix-wise image of the steps, every result is
the dispatch of its step against exactly the successful results of the
preceding produced results folded over the starting context, the final
context is that fold over all results, and the loop stops early exactly
at a failing step whose stop flag is set. -/
theorem runSeqGo_spec (reg : Registry) :
    ∀ (steps : List Step) (n : Nat) (ctx : List (String × Value)) (hist : List ExecRecord),
      (∀ s ∈ steps, (AgentType.fromString s.agent).isSome = true) →
      ∃ results ctxF hist',
        runSeqGo reg n ctx hist steps = (hist', .ok (results, ctxF)) ∧
        results.length ≤ steps.length ∧
        ctxF = successCtx ctx results ∧
        (∀ i, i < results.length →
          ∃ a, AgentType.fromString (steps.getD i dStep).agent = some a ∧
            (results.getD i dSR).agent = a.value ∧
            (results.getD i dSR).result =
              (execute_task reg a (steps.getD i dStep).task
                (some (successCtx ctx (results.take i))) []).result) ∧
        (∀ i, i < results.length →
          resSuccess (results.getD i dSR).result = false →
          (steps.getD i dStep).stop_on_failure = true →
          results.length = i + 1) ∧
        (results.length < steps.length →
          0 < results.length ∧
          resSuccess (results.getD (results.length - 1) dSR).result = false ∧
          (steps.getD (results.length - 1) dStep).stop_on_failure = true) := by
  intro steps
  induction steps with
  | nil =>
    intro n ctx hist _
    refine ⟨[], ctx, hist, rfl, by simp, rfl, ?_, ?_, ?_⟩
    · intro i hi; exact absurd hi (by simp)
    · intro i hi; exact absurd hi (by simp)
    · intro hlt; exact absurd hlt (by simp)
  | cons step rest ih =>
    intro n ctx hist h
    have h1 : (AgentType.fromString step.agent).isSome = true := h step (by simp)
    obtain ⟨a, ha⟩ := Option.isSome_iff_exists.mp h1
    have hrest : ∀ s ∈ rest, (AgentType.fromString s.agent).isSome = true :=
      fun s hs => h s (by simp [hs])
    by_cases hstop : (!resSuccess (execute_task reg a step.task (some ctx) hist).result
        && step.stop_on_failure) = true
    · -- stop-on-failure branch
      have hs2 := hstop
      rw [Bool.and_eq_true] at hs2
      have hfail : resSuccess (execute_task reg a step.task (some ctx) hist).result = false := by
        have := hs2.1
        simpa using this
      have hflag : step.stop_on_failure = true := hs2.2
      refine ⟨[{ step := step.name.getD ("Step " ++ toString (n + 1)),
                 agent := a.value,
                 result := (execute_task reg a step.task (some ctx) hist).result }],
              ctx, (execute_task reg a step.task (some ctx) hist).hist', ?_, ?_, ?_, ?_, ?_, ?_⟩
      · rw [runSeqGo_cons reg n ctx hist step rest a ha]
        simp only [hstop, if_true]
        rw [hfail]
        simp
      · simp
      · simp only [successCtx, List.foldl_cons, List.foldl_nil]
        rw [hfail]
        simp
      · intro i hi
        have hi0 : i = 0 := by simpa using hi
        subst hi0
        refine ⟨a, ha, rfl, ?_⟩
        exact execute_task_result_hist_irrel reg a step.task (some ctx) hist
      · intro i hi _ _
        have hi0 : i = 0 := by simpa using hi
        subst hi0
        rfl
      · intro _
        exact ⟨by simp, hfail, hflag⟩
    · -- continue branch
      obtain ⟨rs, ctxF, histF, hrunR, hlenR, hctxR, hidxR, hminR, hlastR⟩ :=
        ih (n + 1)
          (if resSuccess (execute_task reg a step.task (some ctx) hist).result
           then setKey ctx a.value (execute_task reg a step.task (some ctx) hist).result
           else ctx)
          (execute_task reg a step.task (some ctx) hist).hist' hrest
      refine ⟨{ step := step.name.getD ("Step " ++ toString (n + 1)),
                agent := a.value,
                result := (execute_task reg a step.task (some ctx) hist).result } :: rs,
              ctxF, histF, ?_, ?_, ?_, ?_, ?_, ?_⟩
      · rw [runSeqGo_cons reg n ctx hist step rest a ha]
        simp only [hstop, if_false, Bool.false_eq_true]
        rw [hrunR]
      · simpa using Nat.succ_le_succ hlenR
      · rw [hctxR]
        rfl
      · intro i hi
        cases i with
        | zero =>
          refine ⟨a, ha, rfl, ?_⟩
          exact execute_task_result_hist_irrel reg a step.task (some ctx) hist
        | succ j =>
          have hj : j < rs.length := by simpa using hi
          have hgoal := hidxR j hj
          simpa only [List.getD_cons_succ, List.take_succ_cons] using hgoal
      · intro i hi hfaili hflagi
        cases i with
        | zero =>
          have hf : resSuccess (execute_task reg a step.task (some ctx) hist).result = false :=
            hfaili
          have hg : step.stop_on_failure = true := hflagi
          have : (!resSuccess (execute_task reg a step.task (some ctx) hist).result
              && step.stop_on_failure) = true := by
            rw [hf, hg]
            rfl
          exact absurd this hstop
        | succ j =>
          have hj : j < rs.length := by simpa using hi
          have := hminR j hj (by simpa only [List.getD_cons_succ] using hfaili)
            (by simpa only [List.getD_cons_succ] using hflagi)
          simp [this]
      · intro hlt
        have hlt' : rs.length < rest.length := by simpa using hlt
        obtain ⟨hpos, hfl, hfg⟩ := hlastR hlt'
        obtain ⟨k, hk⟩ : ∃ k, rs.length = k + 1 := ⟨rs.length - 1, by omega⟩
        have hidxeq :
            ({ step := step.name.getD ("Step " ++ toString (n + 1)), agent := a.value,
               result := (execute_task reg a step.task (some ctx) hist).result } :: rs).length - 1
              = k + 1 := by
          simp [hk]
        refine ⟨by simp, ?_, ?_⟩
        · rw [hidxeq, List.getD_cons_succ]
          have : rs.length - 1 = k := by omega
          rw [this] at hfl
          exact hfl
        · rw [hidxeq, List.getD_cons_succ]
          have : rs.length - 1 = k := by omega
          rw [this] at hfg
          exact hfg

/-- Claim C3 (confirmed): in sequential mode steps are dispatched
strictly in list order (result `i` comes from step `i`); the context
attached to step `i`'s dispatch is exactly the successful results of
steps `0..i-1` keyed by agent type (`successCtx [] (results.take i)`, and
the dispatcher attaches it to the task iff it is non-empty);
`SharedContext[agentType]` is updated only on success, the returned
context being the success-only fold over all produced results; and on a
failing step whose `stopOnFailure` flag is set the run stops immediately
— the produced results end exactly at the first such step and the
remaining steps are neither dispatched nor recorded. -/
theorem sequential_mode_spec (reg : Registry) (steps : List Step) (hist : List ExecRecord)
    (h : ∀ s ∈ steps, (AgentType.fromString s.agent).isSome = true) :
    ∃ results ctxF hist',
      runSeqGo reg 0 [] hist steps = (hist', .ok (results, ctxF)) ∧
      orchestrate_workflow reg steps .sequential hist =
        (.ok (mkWFOk .sequential steps results ctxF), hist') ∧
      results.length ≤ steps.length ∧
      ctxF = successCtx [] results ∧
      (∀ i, i < results.length →
        ∃ a, AgentType.fromString (steps.getD i dStep).agent = some a ∧
          (results.getD i dSR).agent = a.value ∧
          (results.getD i dSR).result =
            (execute_task reg a (steps.getD i dStep).task
              (some (successCtx [] (results.take i))) []).result) ∧
      (∀ i, i < results.length →
        resSuccess (results.getD i dSR).result = false →
        (steps.getD i dStep).stop_on_failure = true →
        results.length = i + 1) ∧
      (results.length < steps.length →
        0 < results.length ∧
        resSuccess (results.getD (results.length - 1) dSR).result = false ∧
        (steps.getD (results.length - 1) dStep).stop_on_failure = true) := by
  obtain ⟨results, ctxF, hist', hrun, hlen, hctx, hidx, hmin, hlast⟩ :=
    runSeqGo_spec reg steps 0 [] hist h
  refine ⟨results, ctxF, hist', hrun, ?_, hlen, hctx, hidx, hmin, hlast⟩
  unfold orchestrate_workflow
  rw [hrun]

/-- A 5-step sequential workflow whose second step fails with the stop
flag set. -/
def steps5 : List Step :=
  [ { name := some "s1", agent := "monitoring", task := task0,
      stop_on_failure := false, condition := none },
    { name := some "s2", agent := "sop", task := task0,
      stop_on_failure := true, condition := none },
    { name := some "s3", agent := "report", task := task0,
      stop_on_failure := false, condition := none },
    { name := some "s4", agent := "report", task := task0,
      stop_on_failure := false, condition := none },
    { name := some "s5", agent := "report", task := task0,
      stop_on_failure := false, condition := none } ]

/-- Witness for C3: the 5-step workflow failing at step 2 with
`stopOnFailure` on step 2 yields exactly 2 results (and exactly 2
dispatches in the history), never 5. -/
theorem sequential_mode_spec_witness :
    (∀ s ∈ steps5, (AgentType.fromString s.agent).isSome = true) ∧
    (∃ results ctxF hist',
      runSeqGo regT 0 [] [] steps5 = (hist', .ok (results, ctxF)) ∧
      orchestrate_workflow regT steps5 .sequential [] =
        (.ok (mkWFOk .sequential steps5 results ctxF), hist') ∧
      results.length ≤ steps5.length ∧
      ctxF = successCtx [] results ∧
      (∀ i, i < results.length →
        ∃ a, AgentType.fromString (steps5.getD i dStep).agent = some a ∧
          (results.getD i dSR).agent = a.value ∧
          (results.getD i dSR).result =
            (execute_task regT a (steps5.getD i dStep).task
              (some (successCtx [] (results.take i))) []).result) ∧
      (∀ i, i < results.length →
        resSuccess (results.getD i dSR).result = false →
        (steps5.getD i dStep).stop_on_failure = true →
        results.length = i + 1) ∧
      (results.length < steps5.length →
        0 < results.length ∧
        resSuccess (results.getD (results.length - 1) dSR).result = false ∧
        (steps5.getD (results.length - 1) dStep).stop_on_failure = true)) ∧
    (wfResults (orchestrate_workflow regT steps5 .sequential []).1).length = 2 ∧
    wfSuccess (orchestrate_workflow regT steps5 .sequential []).1 = false ∧
    (orchestrate_workflow regT steps5 .sequential []).2.length = 2 := by
  refine ⟨by decide, sequential_mode_spec regT steps5 [] (by decide), rfl, rfl, rfl⟩

end Orchestration
